import Mathlib

/-!
Terminal descriptor: escape table and escape index (`src/lib/termdesc.h`)

A shallow embedding of the `tinfo` record and of `get_escape`, the lookup of a
terminfo-style escape through the table of 16-bit one-biased indices, together
with the properties of that lookup.

Conventions of the embedding

* a C `char` is a `byte` (`Fin 256`), a `uint16_t` is a `Fin 65536`;
* a `char*` field that owns a buffer is an `Option (List byte)`, `none` being
  the null pointer;
* the `const char*` that `get_escape` returns is a `CharPtr`: the block it
  points into and the byte offset inside that block; `CharPtr.str` reads the
  NUL-terminated string found there;
* the two ways in which the C expression can leave defined behaviour (reading
  `escindices` outside its `ESCAPE_MAX` entries, offsetting a null `esctable`)
  are the two values of `Fault`.
-/

set_option maxRecDepth 8000

namespace Termdesc

/-- One C `char` of the escape block. -/
abbrev byte := Fin 256

/-- The C type `uint16_t`. -/
abbrev uint16_t := Fin 65536

/-- The enumeration `escape_e`: indexes into the table of fixed-width indices. -/
inductive escape_e where
  | ESCAPE_CUP
  | ESCAPE_HPA
  | ESCAPE_VPA
  | ESCAPE_SETAF
  | ESCAPE_SETAB
  | ESCAPE_DEFS
  | ESCAPE_SGR
  | ESCAPE_SGR0
  | ESCAPE_CIVIS
  | ESCAPE_CNORM
  | ESCAPE_MAX
  deriving DecidableEq

/-- The integer value C gives each enumerator (declaration order, from 0). -/
def escape_e.toNat : escape_e → Nat
  | .ESCAPE_CUP => 0
  | .ESCAPE_HPA => 1
  | .ESCAPE_VPA => 2
  | .ESCAPE_SETAF => 3
  | .ESCAPE_SETAB => 4
  | .ESCAPE_DEFS => 5
  | .ESCAPE_SGR => 6
  | .ESCAPE_SGR0 => 7
  | .ESCAPE_CIVIS => 8
  | .ESCAPE_CNORM => 9
  | .ESCAPE_MAX => 10

/-- Number of entries of `escindices`: the value of the enumerator `ESCAPE_MAX`. -/
abbrev ESCAPE_MAX : Nat := escape_e.toNat escape_e.ESCAPE_MAX

/-- The record `tinfo`, field for field. Owned strings are `Option (List byte)`
(`none` is the null pointer), the bound pixel operations are `Option Nat` (an
identifier of the bound implementation, `none` when unbound), the mutex is the
flag saying whether it is held. -/
structure tinfo where
  escindices : Fin ESCAPE_MAX → uint16_t
  esctable : Option (List byte)
  cup : Option (List byte)
  hpa : Option (List byte)
  vpa : Option (List byte)
  setaf : Option (List byte)
  setab : Option (List byte)
  op : Option (List byte)
  sgr : Option (List byte)
  colors : Nat
  sgr0 : Option (List byte)
  fgop : Option (List byte)
  bgop : Option (List byte)
  cuu : Option (List byte)
  cub : Option (List byte)
  cuf : Option (List byte)
  cud : Option (List byte)
  cuf1 : Option (List byte)
  home : Option (List byte)
  civis : Option (List byte)
  cnorm : Option (List byte)
  standout : Option (List byte)
  uline : Option (List byte)
  reverse : Option (List byte)
  blink : Option (List byte)
  dim : Option (List byte)
  bold : Option (List byte)
  italics : Option (List byte)
  italoff : Option (List byte)
  struck : Option (List byte)
  struckoff : Option (List byte)
  initc : Option (List byte)
  oc : Option (List byte)
  clearscr : Option (List byte)
  sc : Option (List byte)
  rc : Option (List byte)
  smkx : Option (List byte)
  rmkx : Option (List byte)
  getm : Option (List byte)
  smcup : Option (List byte)
  rmcup : Option (List byte)
  cellpixy : Int
  cellpixx : Int
  bg_collides_default : Nat
  pixel_query : Bool
  color_registers : Int
  sixel_maxx : Int
  sixel_maxy : Int
  pixel_destroy : Option Nat
  pixel_wipe : Option Nat
  pixel_rebuild : Option Nat
  pixel_remove : Option Nat
  pixel_init : Option Nat
  pixel_draw : Option Nat
  pixel_shutdown : Option Nat
  pixel_clear_all : Option Nat
  sprixel_scale_height : Int
  bitmap_supported : Bool
  sprixel_cursor_hack : Bool
  pixel_query_done : Bool
  alacritty_sixel_hack : Bool
  RGBflag : Bool
  CCCflag : Bool
  BCEflag : Bool
  AMflag : Bool
  utf8 : Bool
  quadrants : Bool
  sextants : Bool
  braille : Bool

/-- A non-null `const char*` into a block of bytes: the block and the offset. -/
structure CharPtr where
  block : List byte
  off : Nat
  deriving DecidableEq

/-- The bytes of a buffer up to, not including, its first NUL; `none` when the
buffer ends before any NUL is met (the read would leave the block). -/
def c_str : List byte → Option (List byte)
  | [] => none
  | b :: bs => if b = 0 then some [] else (c_str bs).map (fun r => b :: r)

/-- The NUL-terminated string a pointer designates. -/
def CharPtr.str (p : CharPtr) : Option (List byte) :=
  c_str (p.block.drop p.off)

/-- The ways the body of `get_escape` can leave defined behaviour. -/
inductive Fault where
  | index_out_of_bounds
  | null_table_offset
  deriving DecidableEq

deriving instance DecidableEq for Except

/-- The read `tdesc->escindices[e]`: `none` when `e` is not below `ESCAPE_MAX`. -/
def read_escindex (tdesc : tinfo) (e : escape_e) : Option Nat :=
  if h : e.toNat < ESCAPE_MAX then some (tdesc.escindices ⟨e.toNat, h⟩).val else none

/-- The function `get_escape`:
```
unsigned idx = tdesc->escindices[e];
if(idx){ return tdesc->esctable + idx - 1; }
return NULL;
```
The result `Except.ok none` is the null pointer. -/
def get_escape (tdesc : tinfo) (e : escape_e) : Except Fault (Option CharPtr) :=
  match read_escindex tdesc e with
  | none => Except.error Fault.index_out_of_bounds
  | some idx =>
    if idx ≠ 0 then
      match tdesc.esctable with
      | none => Except.error Fault.null_table_offset
      | some tbl => Except.ok (some { block := tbl, off := idx - 1 })
    else
      Except.ok none

/-- The call `get_escape(tdesc, e)` as a step on the descriptor: the parameter
is `const`-qualified and the body performs no store, so the descriptor after
the call is the one before it. -/
def get_escape_call (tdesc : tinfo) (e : escape_e) :
    tinfo × Except Fault (Option CharPtr) :=
  (tdesc, get_escape tdesc e)

/-- A descriptor with every field zero (no table, every index 0). -/
def zero_tinfo : tinfo where
  escindices := fun _ => 0
  esctable := none
  cup := none
  hpa := none
  vpa := none
  setaf := none
  setab := none
  op := none
  sgr := none
  colors := 0
  sgr0 := none
  fgop := none
  bgop := none
  cuu := none
  cub := none
  cuf := none
  cud := none
  cuf1 := none
  home := none
  civis := none
  cnorm := none
  standout := none
  uline := none
  reverse := none
  blink := none
  dim := none
  bold := none
  italics := none
  italoff := none
  struck := none
  struckoff := none
  initc := none
  oc := none
  clearscr := none
  sc := none
  rc := none
  smkx := none
  rmkx := none
  getm := none
  smcup := none
  rmcup := none
  cellpixy := 0
  cellpixx := 0
  bg_collides_default := 0
  pixel_query := false
  color_registers := 0
  sixel_maxx := 0
  sixel_maxy := 0
  pixel_destroy := none
  pixel_wipe := none
  pixel_rebuild := none
  pixel_remove := none
  pixel_init := none
  pixel_draw := none
  pixel_shutdown := none
  pixel_clear_all := none
  sprixel_scale_height := 0
  bitmap_supported := false
  sprixel_cursor_hack := false
  pixel_query_done := false
  alacritty_sixel_hack := false
  RGBflag := false
  CCCflag := false
  BCEflag := false
  AMflag := false
  utf8 := false
  quadrants := false
  sextants := false
  braille := false

/-- The index array with entry `e` set to `v` (entries of other roles kept). -/
def set_escindex (f : Fin ESCAPE_MAX → uint16_t) (e : escape_e) (v : uint16_t) :
    Fin ESCAPE_MAX → uint16_t :=
  fun i => if i.val = e.toNat then v else f i

/-- The bytes of an ASCII string literal. -/
def ascii (s : String) : List byte :=
  s.toList.map (fun c => Fin.ofNat c.toNat)

/-- The block `"CUP\0SETAF\0"`. -/
def scenario_table : List byte :=
  ascii "CUP" ++ [0] ++ ascii "SETAF" ++ [0]

/-- Scenario A descriptor: table `"CUP\0SETAF\0"`, `ESCAPE_CUP` at index 1,
`ESCAPE_SETAF` at index 5, every other role undefined. -/
def scenario_tinfo : tinfo :=
  { zero_tinfo with
    esctable := some scenario_table
    escindices :=
      set_escindex (set_escindex zero_tinfo.escindices escape_e.ESCAPE_CUP 1)
        escape_e.ESCAPE_SETAF 5 }

/-! ## The `define` operation -/

/-- Modelled from the spec: a role of the closed enumeration of section 3 (the
ten named roles; the counting enumerator `ESCAPE_MAX` is not one of them). -/
abbrev role := { e : escape_e // e ≠ escape_e.ESCAPE_MAX }

/-- A C string handed to `define`: bytes, none of which is NUL. -/
structure c_string where
  bytes : List byte
  nul_free : ∀ b ∈ bytes, b ≠ 0

/-- Modelled from the spec: the error `define` reports (section 7,
"CapacityExceeded (escape table full)"). -/
inductive define_error where
  | CapacityExceeded
  deriving DecidableEq

/-- Bytes of the escape table in use (0 when there is no table yet). -/
def table_used (tdesc : tinfo) : Nat :=
  (tdesc.esctable.getD []).length

/-- Modelled from the spec: `define(role, string)` of section 4.1, which
`termdesc.h` does not contain. It "appends `string` to the table ... and
records its 1-biased offset under `role` in the index"; strings are stored
NUL-terminated (section 6); "defining a string that would exceed the
65535-byte addressable limit fails with CapacityExceeded and leaves the table
unchanged" (section 8, "Total table size ≤ 65535 bytes", section 6). No
deduplication is done ("implementations may deduplicate but need not"). The
result is the descriptor after the call and the outcome. -/
def define (tdesc : tinfo) (r : role) (s : c_string) :
    tinfo × Except define_error Unit :=
  if h : table_used tdesc + s.bytes.length + 1 ≤ 65535 then
    ({ tdesc with
        esctable := some (tdesc.esctable.getD [] ++ s.bytes ++ [0])
        escindices :=
          set_escindex tdesc.escindices r.val ⟨table_used tdesc + 1, by omega⟩ },
      Except.ok ())
  else
    (tdesc, Except.error define_error.CapacityExceeded)

/-- The role move-cursor-absolute. -/
def role_cup : role := ⟨escape_e.ESCAPE_CUP, by decide⟩

/-- The role set-foreground. -/
def role_setaf : role := ⟨escape_e.ESCAPE_SETAF, by decide⟩

/-- The C string `"CUP"`. -/
def str_cup : c_string := ⟨ascii "CUP", by decide⟩

/-- The C string `"SETAF"`. -/
def str_setaf : c_string := ⟨ascii "SETAF", by decide⟩

/-- The enumerators that name a role, in declaration order. -/
def roles : List escape_e :=
  [escape_e.ESCAPE_CUP, escape_e.ESCAPE_HPA, escape_e.ESCAPE_VPA, escape_e.ESCAPE_SETAF,
    escape_e.ESCAPE_SETAB, escape_e.ESCAPE_DEFS, escape_e.ESCAPE_SGR, escape_e.ESCAPE_SGR0,
    escape_e.ESCAPE_CIVIS, escape_e.ESCAPE_CNORM]

/-- A C string of 65525 bytes, each the letter A. -/
def str_long : c_string :=
  ⟨List.replicate 65525 65, fun b hb => by rw [List.eq_of_mem_replicate hb]; decide⟩

/-- Scenario A descriptor with other fields and another role changed. -/
def scenario_tinfo_alt : tinfo :=
  { scenario_tinfo with
    escindices := set_escindex scenario_tinfo.escindices escape_e.ESCAPE_HPA 3
    cup := some (ascii "x")
    colors := 256
    cellpixy := 20
    cellpixx := 10
    pixel_query := true
    color_registers := 16
    pixel_draw := some 1
    bitmap_supported := true
    pixel_query_done := true
    RGBflag := true
    utf8 := true }

/-- A descriptor whose `ESCAPE_CUP` index is the largest 16-bit value. -/
def last_index_tinfo : tinfo :=
  { zero_tinfo with
    esctable := some scenario_table
    escindices := set_escindex zero_tinfo.escindices escape_e.ESCAPE_CUP 65535 }

/-! ## Lemmas on the index read and on `get_escape` -/

/-- Every enumerator other than `ESCAPE_MAX` is below `ESCAPE_MAX`. -/
theorem toNat_lt_of_ne_max (e : escape_e) (he : e ≠ escape_e.ESCAPE_MAX) :
    e.toNat < ESCAPE_MAX := by
  cases e <;> simp_all [escape_e.toNat, ESCAPE_MAX]

/-- The index read succeeds exactly below `ESCAPE_MAX`. -/
theorem read_escindex_of_lt (tdesc : tinfo) (e : escape_e) (h : e.toNat < ESCAPE_MAX) :
    read_escindex tdesc e = some (tdesc.escindices ⟨e.toNat, h⟩).val := by
  unfold read_escindex
  rw [dif_pos h]

/-- A stored index is a 16-bit value. -/
theorem read_escindex_lt (tdesc : tinfo) (e : escape_e) (n : Nat)
    (h : read_escindex tdesc e = some n) : n < 65536 := by
  unfold read_escindex at h
  split at h
  · cases h
    exact (tdesc.escindices _).isLt
  · cases h

/-- The index read does not look at the escape table. -/
theorem read_escindex_with_esctable (tdesc : tinfo) (tbl : Option (List byte))
    (e : escape_e) :
    read_escindex { tdesc with esctable := tbl } e = read_escindex tdesc e := rfl

/-- Result of `get_escape` when the stored index is 0. -/
theorem get_escape_of_zero (tdesc : tinfo) (e : escape_e)
    (h : read_escindex tdesc e = some 0) : get_escape tdesc e = Except.ok none := by
  unfold get_escape
  rw [h]
  rfl

/-- Result of `get_escape` when the stored index is not 0 and there is a table. -/
theorem get_escape_of_pos (tdesc : tinfo) (e : escape_e) (n : Nat) (tbl : List byte)
    (h : read_escindex tdesc e = some n) (hn : n ≠ 0) (ht : tdesc.esctable = some tbl) :
    get_escape tdesc e = Except.ok (some { block := tbl, off := n - 1 }) := by
  unfold get_escape
  rw [h]
  simp only [hn, ne_eq, not_false_eq_true, if_true, ht]

/-- Inversion of a non-null result of `get_escape`. -/
theorem get_escape_some_inv (tdesc : tinfo) (e : escape_e) (p : CharPtr)
    (h : get_escape tdesc e = Except.ok (some p)) :
    ∃ n, read_escindex tdesc e = some n ∧ n ≠ 0 ∧ tdesc.esctable = some p.block
      ∧ p.off = n - 1 := by
  unfold get_escape at h
  cases hr : read_escindex tdesc e with
  | none => rw [hr] at h; cases h
  | some n =>
    rw [hr] at h
    by_cases hn : n = 0
    · subst hn
      simp at h
    · cases ht : tdesc.esctable with
      | none => simp [hn, ht] at h
      | some tbl =>
        simp [hn, ht] at h
        subst h
        exact ⟨n, rfl, hn, rfl, rfl⟩

/-- At the counting enumerator the read is outside the array. -/
theorem get_escape_at_max (tdesc : tinfo) :
    get_escape tdesc escape_e.ESCAPE_MAX = Except.error Fault.index_out_of_bounds := by
  rfl

/-- Reading a NUL-free string followed by a NUL gives the string back. -/
theorem c_str_append_nul (s : List byte) (rest : List byte) (hs : ∀ b ∈ s, b ≠ 0) :
    c_str (s ++ 0 :: rest) = some s := by
  induction s with
  | nil => simp [c_str]
  | cons b bs ih =>
    have hb : b ≠ 0 := hs b (List.mem_cons_self b bs)
    have hbs : ∀ x ∈ bs, x ≠ 0 := fun x hx => hs x (List.mem_cons_of_mem b hx)
    simp [c_str, hb, ih hbs]

/-- The entry written by `set_escindex` is the one read back. -/
theorem set_escindex_same (f : Fin ESCAPE_MAX → uint16_t) (e : escape_e) (v : uint16_t)
    (h : e.toNat < ESCAPE_MAX) : set_escindex f e v ⟨e.toNat, h⟩ = v := by
  simp [set_escindex]

/-- Entries of other roles are kept by `set_escindex`. -/
theorem set_escindex_other (f : Fin ESCAPE_MAX → uint16_t) (e : escape_e) (v : uint16_t)
    (i : Fin ESCAPE_MAX) (h : i.val ≠ e.toNat) : set_escindex f e v i = f i := by
  simp [set_escindex, h]

/-- The outcome of `define` is decided by the capacity test alone. -/
theorem define_ok_iff (tdesc : tinfo) (r : role) (s : c_string) :
    (define tdesc r s).2 = Except.ok ()
      ↔ table_used tdesc + s.bytes.length + 1 ≤ 65535 := by
  unfold define
  split <;> simp_all

/-- The descriptor after a successful `define`. -/
theorem define_ok_state (tdesc : tinfo) (r : role) (s : c_string)
    (h : table_used tdesc + s.bytes.length + 1 ≤ 65535) :
    (define tdesc r s).1.esctable = some (tdesc.esctable.getD [] ++ s.bytes ++ [0])
      ∧ read_escindex (define tdesc r s).1 r.val = some (table_used tdesc + 1) := by
  have hr : r.val.toNat < ESCAPE_MAX := toNat_lt_of_ne_max r.val r.property
  unfold define
  rw [dif_pos h]
  refine ⟨rfl, ?_⟩
  rw [read_escindex_of_lt _ _ hr]
  simp [set_escindex]

/-- Scenario A is what two calls of `define` on the zero descriptor produce. -/
theorem scenario_by_define :
    (define (define zero_tinfo role_cup str_cup).1 role_setaf str_setaf).1.esctable
        = scenario_tinfo.esctable
      ∧ ∀ e, read_escindex
          (define (define zero_tinfo role_cup str_cup).1 role_setaf str_setaf).1 e
        = read_escindex scenario_tinfo e := by
  refine ⟨by decide, ?_⟩
  intro e
  cases e <;> decide

/-- Defining the two roles in the other order gives another layout and the same
lookups. -/
theorem scenario_by_define_swapped :
    (∃ p, get_escape (define (define zero_tinfo role_setaf str_setaf).1 role_cup str_cup).1
          escape_e.ESCAPE_CUP = Except.ok (some p) ∧ p.off = 6
        ∧ p.str = some (ascii "CUP"))
      ∧ (∃ p, get_escape (define (define zero_tinfo role_setaf str_setaf).1 role_cup str_cup).1
          escape_e.ESCAPE_SETAF = Except.ok (some p) ∧ p.off = 0
        ∧ p.str = some (ascii "SETAF"))
      ∧ get_escape (define (define zero_tinfo role_setaf str_setaf).1 role_cup str_cup).1
          escape_e.ESCAPE_SETAB = Except.ok none := by
  refine ⟨⟨⟨ascii "SETAF" ++ [0] ++ ascii "CUP" ++ [0], 6⟩, by decide, rfl, by decide⟩,
    ⟨⟨ascii "SETAF" ++ [0] ++ ascii "CUP" ++ [0], 0⟩, by decide, rfl, by decide⟩, by decide⟩

/-- The largest index reaches offset 65534, so the bound of the lookup is attained. -/
theorem get_escape_last_index :
    get_escape last_index_tinfo escape_e.ESCAPE_CUP
      = Except.ok (some { block := scenario_table, off := 65534 }) := by
  decide

/-- With 10 bytes in use a string of 65524 bytes still fits, one of 65525 does not. -/
theorem define_capacity_edge (r : role) (s : c_string) :
    ((define scenario_tinfo r s).2 = Except.ok () ↔ s.bytes.length ≤ 65524) := by
  rw [define_ok_iff]
  have h : table_used scenario_tinfo = 10 := by decide
  rw [h]
  omega

/-! ## The claims -/

/-- C1: when the stored index of a role is 0, `get_escape` returns the null
pointer, and it does so whatever the escape table is: replacing `esctable` by
any table, or by no table at all, leaves the result null. -/
theorem get_escape_undefined_null (tdesc : tinfo) (e : escape_e)
    (h : read_escindex tdesc e = some 0) :
    get_escape tdesc e = Except.ok none
      ∧ ∀ tbl : Option (List byte),
          get_escape { tdesc with esctable := tbl } e = Except.ok none := by
  refine ⟨get_escape_of_zero tdesc e h, ?_⟩
  intro tbl
  apply get_escape_of_zero
  rw [read_escindex_with_esctable]
  exact h

/-- Witness of C1 at scenario A and the undefined role `ESCAPE_SETAB`. -/
theorem get_escape_undefined_null_witness :
    read_escindex scenario_tinfo escape_e.ESCAPE_SETAB = some 0
      ∧ (get_escape scenario_tinfo escape_e.ESCAPE_SETAB = Except.ok none
        ∧ ∀ tbl : Option (List byte),
            get_escape { scenario_tinfo with esctable := tbl } escape_e.ESCAPE_SETAB
              = Except.ok none) :=
  ⟨by decide, get_escape_undefined_null scenario_tinfo escape_e.ESCAPE_SETAB (by decide)⟩

/-- C3: scenario A. In a descriptor whose table is `"CUP\0SETAF\0"`, with
`ESCAPE_CUP` at index 1, `ESCAPE_SETAF` at index 5 and `ESCAPE_SETAB` at index
0, `get_escape` returns the string `"CUP"` for `ESCAPE_CUP`, the string
`"SETAF"` for `ESCAPE_SETAF`, and the null pointer for `ESCAPE_SETAB`. -/
theorem scenario_A_lookup (tdesc : tinfo)
    (htbl : tdesc.esctable = some scenario_table)
    (hcup : read_escindex tdesc escape_e.ESCAPE_CUP = some 1)
    (hsetaf : read_escindex tdesc escape_e.ESCAPE_SETAF = some 5)
    (hsetab : read_escindex tdesc escape_e.ESCAPE_SETAB = some 0) :
    (∃ p, get_escape tdesc escape_e.ESCAPE_CUP = Except.ok (some p)
        ∧ p.str = some (ascii "CUP"))
      ∧ (∃ p, get_escape tdesc escape_e.ESCAPE_SETAF = Except.ok (some p)
        ∧ p.str = some (ascii "SETAF"))
      ∧ get_escape tdesc escape_e.ESCAPE_SETAB = Except.ok none := by
  refine ⟨⟨_, get_escape_of_pos tdesc _ 1 _ hcup (by decide) htbl, by decide⟩,
    ⟨_, get_escape_of_pos tdesc _ 5 _ hsetaf (by decide) htbl, by decide⟩,
    get_escape_of_zero tdesc _ hsetab⟩

/-- Witness of C3 at the scenario A descriptor. -/
theorem scenario_A_lookup_witness :
    (∃ p, get_escape scenario_tinfo escape_e.ESCAPE_CUP = Except.ok (some p)
        ∧ p.str = some (ascii "CUP"))
      ∧ (∃ p, get_escape scenario_tinfo escape_e.ESCAPE_SETAF = Except.ok (some p)
        ∧ p.str = some (ascii "SETAF"))
      ∧ get_escape scenario_tinfo escape_e.ESCAPE_SETAB = Except.ok none :=
  scenario_A_lookup scenario_tinfo rfl (by decide) (by decide) (by decide)

/-- C4: a non-null result of `get_escape` points into the escape table at an
offset between 0 and 65534: no escape returned by the lookup starts at byte
65535, and the offsets the lookup can reach are the first 65535 bytes. -/
theorem get_escape_offset_bound (tdesc : tinfo) (e : escape_e) (p : CharPtr)
    (h : get_escape tdesc e = Except.ok (some p)) :
    tdesc.esctable = some p.block ∧ 0 ≤ p.off ∧ p.off ≤ 65534 ∧ p.off ≠ 65535
      ∧ p.off < 65535 := by
  obtain ⟨n, hn, hn0, htbl, hoff⟩ := get_escape_some_inv tdesc e p h
  have hlt := read_escindex_lt tdesc e n hn
  refine ⟨htbl, Nat.zero_le _, ?_, ?_, ?_⟩ <;> omega

/-- Witness of C4 at the largest index. -/
theorem get_escape_offset_bound_witness :
    get_escape last_index_tinfo escape_e.ESCAPE_CUP
        = Except.ok (some { block := scenario_table, off := 65534 })
      ∧ (last_index_tinfo.esctable = some scenario_table ∧ 0 ≤ 65534 ∧ 65534 ≤ 65534
        ∧ 65534 ≠ 65535 ∧ 65534 < 65535) :=
  ⟨by decide,
    get_escape_offset_bound last_index_tinfo escape_e.ESCAPE_CUP
      { block := scenario_table, off := 65534 } (by decide)⟩

/-- C5: round trip of `define` and lookup. Whenever `define` of a string under
a role succeeds, `get_escape` of that role on the resulting descriptor returns
a non-null pointer whose string is, byte for byte, the string defined; the
pointer starts where the table ended before the call. -/
theorem define_lookup_roundtrip (tdesc : tinfo) (r : role) (s : c_string)
    (tdesc' : tinfo) (h : define tdesc r s = (tdesc', Except.ok ())) :
    ∃ p, get_escape tdesc' r.val = Except.ok (some p) ∧ p.str = some s.bytes
      ∧ p.off = table_used tdesc := by
  have hok : (define tdesc r s).2 = Except.ok () := by rw [h]
  have hfit := (define_ok_iff tdesc r s).mp hok
  obtain ⟨htbl, hidx⟩ := define_ok_state tdesc r s hfit
  rw [h] at htbl hidx
  refine ⟨_, get_escape_of_pos tdesc' r.val _ _ hidx (Nat.succ_ne_zero _) htbl, ?_, ?_⟩
  · show c_str (List.drop (table_used tdesc + 1 - 1)
        (tdesc.esctable.getD [] ++ s.bytes ++ [0])) = some s.bytes
    have hd : List.drop (table_used tdesc + 1 - 1)
        (tdesc.esctable.getD [] ++ s.bytes ++ [0]) = s.bytes ++ 0 :: [] := by
      rw [Nat.add_sub_cancel, List.append_assoc]
      exact List.drop_left _ _
    rw [hd]
    exact c_str_append_nul s.bytes [] s.nul_free
  · exact Nat.add_sub_cancel (table_used tdesc) 1

/-- Witness of C5: `"SETAF"` defined after `"CUP"`. -/
theorem define_lookup_roundtrip_witness :
    define (define zero_tinfo role_cup str_cup).1 role_setaf str_setaf
        = ((define (define zero_tinfo role_cup str_cup).1 role_setaf str_setaf).1,
            Except.ok ())
      ∧ ∃ p, get_escape
            (define (define zero_tinfo role_cup str_cup).1 role_setaf str_setaf).1
            role_setaf.val = Except.ok (some p)
          ∧ p.str = some str_setaf.bytes
          ∧ p.off = table_used (define zero_tinfo role_cup str_cup).1 :=
  ⟨rfl, define_lookup_roundtrip (define zero_tinfo role_cup str_cup).1 role_setaf
    str_setaf _ rfl⟩

/-- C6: when appending the string and its terminator would take the escape
table past 65535 bytes, `define` fails with `CapacityExceeded` and the
descriptor after the call, escape table and escape index included, is the
descriptor before it. -/
theorem define_capacity_exceeded (tdesc : tinfo) (r : role) (s : c_string)
    (h : 65535 < table_used tdesc + s.bytes.length + 1) :
    define tdesc r s = (tdesc, Except.error define_error.CapacityExceeded)
      ∧ (define tdesc r s).1.esctable = tdesc.esctable
      ∧ (define tdesc r s).1.escindices = tdesc.escindices := by
  have hd : define tdesc r s = (tdesc, Except.error define_error.CapacityExceeded) := by
    unfold define
    rw [dif_neg (by omega)]
  rw [hd]
  exact ⟨rfl, rfl, rfl⟩

/-- Witness of C6: 10 bytes in use and a string of 65525 bytes. -/
theorem define_capacity_exceeded_witness :
    65535 < table_used scenario_tinfo + str_long.bytes.length + 1
      ∧ (define scenario_tinfo role_cup str_long
            = (scenario_tinfo, Except.error define_error.CapacityExceeded)
        ∧ (define scenario_tinfo role_cup str_long).1.esctable = scenario_tinfo.esctable
        ∧ (define scenario_tinfo role_cup str_long).1.escindices
            = scenario_tinfo.escindices) :=
  have hused : table_used scenario_tinfo = 10 := by decide
  have hlen : str_long.bytes.length = 65525 := List.length_replicate _ _
  ⟨by rw [hused, hlen]; decide,
    define_capacity_exceeded scenario_tinfo role_cup str_long
      (by rw [hused, hlen]; decide)⟩

/-- The ten roles, in declaration order. -/
theorem roles_numbering :
    roles.map escape_e.toNat = List.range 10 ∧ roles.length = 10
      ∧ escape_e.ESCAPE_MAX ∉ roles := by
  decide

/-- C9: the enumeration is closed: it numbers the ten roles 0 to 9 and
`ESCAPE_MAX` is 10, the number of entries of `escindices`; so for every
enumerator other than `ESCAPE_MAX` (each is one of the ten roles) the read
`escindices[e]` is inside the array and `get_escape` does not take the
out-of-bounds branch. -/
theorem escape_index_in_bounds (tdesc : tinfo) (e : escape_e)
    (he : e ≠ escape_e.ESCAPE_MAX) :
    roles.map escape_e.toNat = List.range 10
      ∧ roles.length = 10
      ∧ e ∈ roles
      ∧ ESCAPE_MAX = 10
      ∧ Fintype.card (Fin ESCAPE_MAX) = 10
      ∧ e.toNat < ESCAPE_MAX
      ∧ (∃ v : uint16_t, read_escindex tdesc e = some v.val)
      ∧ get_escape tdesc e ≠ Except.error Fault.index_out_of_bounds := by
  have hlt := toNat_lt_of_ne_max e he
  have hread := read_escindex_of_lt tdesc e hlt
  have hmem : e ∈ roles := by
    cases e <;> first | exact absurd rfl he | decide
  refine ⟨by decide, by decide, hmem, rfl, Fintype.card_fin _, hlt, ⟨_, hread⟩, ?_⟩
  unfold get_escape
  rw [hread]
  by_cases h0 : (tdesc.escindices ⟨e.toNat, hlt⟩).val = 0
  · simp [h0]
  · cases ht : tdesc.esctable <;> simp [h0]

/-- Witness of C9 at scenario A and the last role, `ESCAPE_CNORM`. -/
theorem escape_index_in_bounds_witness :
    escape_e.ESCAPE_CNORM ≠ escape_e.ESCAPE_MAX
      ∧ (roles.map escape_e.toNat = List.range 10
        ∧ roles.length = 10
        ∧ escape_e.ESCAPE_CNORM ∈ roles
        ∧ ESCAPE_MAX = 10
        ∧ Fintype.card (Fin ESCAPE_MAX) = 10
        ∧ escape_e.ESCAPE_CNORM.toNat < ESCAPE_MAX
        ∧ (∃ v : uint16_t, read_escindex scenario_tinfo escape_e.ESCAPE_CNORM = some v.val)
        ∧ get_escape scenario_tinfo escape_e.ESCAPE_CNORM
            ≠ Except.error Fault.index_out_of_bounds) :=
  ⟨by decide, escape_index_in_bounds scenario_tinfo escape_e.ESCAPE_CNORM (by decide)⟩

/-- C10: `get_escape` depends on the descriptor only through the escape table
and the index entry of the queried role: two descriptors that agree on both
give the same result, whatever their other fields and other index entries;
and the call leaves the descriptor as it was. -/
theorem get_escape_reads_only (t1 t2 : tinfo) (e : escape_e)
    (htbl : t1.esctable = t2.esctable)
    (hidx : read_escindex t1 e = read_escindex t2 e) :
    get_escape t1 e = get_escape t2 e
      ∧ (get_escape_call t1 e).2 = (get_escape_call t2 e).2
      ∧ (get_escape_call t1 e).1 = t1 ∧ (get_escape_call t2 e).1 = t2 := by
  have h : get_escape t1 e = get_escape t2 e := by
    unfold get_escape
    rw [hidx, htbl]
  exact ⟨h, h, rfl, rfl⟩

/-- Witness of C10: scenario A against a descriptor that differs in capability
flags, cell sizes, bitmap state and the `ESCAPE_HPA` entry. -/
theorem get_escape_reads_only_witness :
    scenario_tinfo.esctable = scenario_tinfo_alt.esctable
      ∧ read_escindex scenario_tinfo escape_e.ESCAPE_SETAF
          = read_escindex scenario_tinfo_alt escape_e.ESCAPE_SETAF
      ∧ scenario_tinfo.RGBflag ≠ scenario_tinfo_alt.RGBflag
      ∧ read_escindex scenario_tinfo escape_e.ESCAPE_HPA
          ≠ read_escindex scenario_tinfo_alt escape_e.ESCAPE_HPA
      ∧ (get_escape scenario_tinfo escape_e.ESCAPE_SETAF
            = get_escape scenario_tinfo_alt escape_e.ESCAPE_SETAF
        ∧ (get_escape_call scenario_tinfo escape_e.ESCAPE_SETAF).2
            = (get_escape_call scenario_tinfo_alt escape_e.ESCAPE_SETAF).2
        ∧ (get_escape_call scenario_tinfo escape_e.ESCAPE_SETAF).1 = scenario_tinfo
        ∧ (get_escape_call scenario_tinfo_alt escape_e.ESCAPE_SETAF).1
            = scenario_tinfo_alt) :=
  ⟨rfl, by decide, by decide, by decide,
    get_escape_reads_only scenario_tinfo scenario_tinfo_alt escape_e.ESCAPE_SETAF rfl
      (by decide)⟩

end Termdesc
